import Mathlib

set_option maxHeartbeats 1000000

/-!
Shallow embedding of the MME report-sender scripts
(`analyze_reports.py`, `create_se_folders.py`, `send_reports.py`,
`send_reports_test.py`) and proofs about the claims of the
specification.

Strings manipulated by the Python code (filenames, folder names,
error messages) are modelled as lists of characters (`Str`); the
Python string primitives used by the scripts (`str.split`,
`str.strip`, `str.lower`, `str.startswith`, `str.endswith`,
`str.isdigit`, substring membership `in`, and `pathlib.Path.stem`)
are embedded as executable functions on `Str` below, following
CPython semantics.
-/

/-- Character-list model of a Python string. -/
abbrev Str := List Char

/-- Coerce a Lean string literal into the character-list model. -/
def str (s : String) : Str := s.toList

/-- Python `s.lower()` (character-wise lowercasing). -/
def lowerL (l : Str) : Str := l.map Char.toLower

/-- Python `s.startswith(c)` for a single-character argument. -/
def startsWithChar (c : Char) (l : Str) : Bool :=
  match l with
  | [] => false
  | a :: _ => a = c

/-- Python `s.endswith(('.', ' '))` as used by `create_se_folders.py`. -/
def endsDotOrSpace (l : Str) : Bool :=
  match l.getLast? with
  | some c => c = '.' || c = ' '
  | none => false

/-- Python `s.isdigit()`: nonempty and all digits. -/
def isDigits (l : Str) : Bool :=
  !l.isEmpty && l.all Char.isDigit

/-- Python `s.strip()`: drop whitespace from both ends. -/
def stripWs (l : Str) : Str :=
  ((l.dropWhile Char.isWhitespace).reverse.dropWhile Char.isWhitespace).reverse

/-- Python substring test `p in t`. -/
def containsSub : Str → Str → Bool
  | [], p => p.isPrefixOf ([] : Str)
  | a :: t, p => p.isPrefixOf (a :: t) || containsSub t p

/-- Python `s.split(c)` for a single-character separator (keeps empty
segments, as CPython does). -/
def pySplit (c : Char) : Str → List Str
  | [] => [[]]
  | a :: t =>
    let r := pySplit c t
    if a = c then [] :: r
    else
      match r with
      | [] => [[a]]
      | s :: rest => (a :: s) :: rest

/-- Python `s.split(c, 1)`: split at the first occurrence of `c`;
`none` when `c` does not occur (so the Python result has one part). -/
def splitOnce (c : Char) : Str → Option (Str × Str)
  | [] => none
  | a :: t =>
    if a = c then some ([], t)
    else (splitOnce c t).map (fun p => (a :: p.1, p.2))

/-- Python `' '.join(parts)`. -/
def joinSpace : List Str → Str
  | [] => []
  | [s] => s
  | s :: t :: rest => s ++ ' ' :: joinSpace (t :: rest)

/-- Helper for `pyWords`: accumulates the current word (reversed). -/
def wordsAux (cur : Str) : Str → List Str
  | [] => if cur = [] then [] else [cur.reverse]
  | a :: t =>
    if a.isWhitespace then
      if cur = [] then wordsAux [] t else cur.reverse :: wordsAux [] t
    else wordsAux (a :: cur) t

/-- Python `s.split()` with no argument: split on whitespace runs,
dropping empty segments. -/
def pyWords (l : Str) : List Str := wordsAux [] l

/-- CPython `pathlib.PurePath.stem` on a path-free file name: drop the
final suffix, where the suffix starts at the last `'.'` provided that
dot is neither the first nor the last character. -/
def pyStem (l : Str) : Str :=
  let afterRev := l.reverse.takeWhile (fun c => ¬ (c = '.'))
  if afterRev.length = l.length then l
  else if afterRev.length = 0 then l
  else if l.length - afterRev.length - 1 = 0 then l
  else l.take (l.length - afterRev.length - 1)

/-! ### `analyze_reports.py` -/

/-- `extract_name_from_filename` from `analyze_reports.py`:
`stem = Path(filename).stem; parts = stem.split('_', 1);
return parts[1].strip() if len(parts) == 2 else stem.strip()`. -/
def extract_name_from_filename (filename : Str) : Str :=
  let stem := pyStem filename
  match splitOnce '_' stem with
  | some p => stripWs p.2
  | none => stripWs stem

/-- The tier-1 exact-match test of `find_best_match`: the folder name
splits on `'_'` into at least 4 parts and the parts from index 3 on,
joined with spaces and lowercased, equal the lowercased name. -/
def exactP (seLower : Str) (folder : Str) : Bool :=
  let parts := pySplit '_' folder
  decide (4 ≤ parts.length) && (lowerL (joinSpace (parts.drop 3)) == seLower)

/-- `find_best_match` from `analyze_reports.py`: three tiers tried in
order (exact → substring → partial word), first hit wins, scores
100 / 80 / 50, and `(none, 0)` when nothing matches. -/
def find_best_match (se_name : Str) (se_folders : List Str) : Option Str × Nat :=
  let seLower := lowerL se_name
  match se_folders.find? (fun folder => exactP seLower folder) with
  | some folder => (some folder, 100)
  | none =>
    match se_folders.find? (fun folder => containsSub (lowerL folder) seLower) with
    | some folder => (some folder, 80)
    | none =>
      match se_folders.find? (fun folder =>
          (pyWords seLower).any (fun w => containsSub (lowerL folder) w)) with
      | some folder => (some folder, 50)
      | none => (none, 0)

/-! ### `send_reports.py` (and the date-subfolder variant
`send_reports_test.py`) -/

/-- A directory entry seen by the dispatch scripts: its name, its
`stat().st_size`, and whether it is a regular file. -/
structure FileEntry where
  name : Str
  size : Nat
  isFile : Bool
deriving DecidableEq

/-- `is_valid_file` from `send_reports.py`: reject names starting with
`'~'` or `'.'`, then reject sizes under 5000 bytes, accept the rest. -/
def is_valid_file (f : FileEntry) : Bool :=
  if startsWithChar '~' f.name || startsWithChar '.' f.name then false
  else if f.size < 5000 then false
  else true

/-- The per-file filter at the call sites in `send_reports.py`
(`x.is_file() and is_valid_file(x)`). -/
def dispatchFilter (f : FileEntry) : Bool :=
  f.isFile && is_valid_file f

/-- The per-file filter of the date-subfolder variant
(`send_reports_test.py`: `x.is_file() and x.stat().st_size > 5000`). -/
def dateVariantFilter (f : FileEntry) : Bool :=
  f.isFile && decide (5000 < f.size)

/-- The incoming-report size filter of `analyze_reports.py`
(`f.stat().st_size > 1000`). -/
def incomingFilter (f : FileEntry) : Bool :=
  decide (1000 < f.size)

/-- What one HTTP attempt inside `send_file` can produce: either a
parsed response (status code, `ok` flag of the JSON body, optional
`description` field) or a raised exception with its message. -/
inductive Att where
  | resp (status : Nat) (ok : Bool) (description : Option Str)
  | exc (msg : Str)
deriving DecidableEq

/-- The success test of `send_file`:
`resp.status_code == 200 and resp.json().get('ok')`; an exception is
never a success. -/
def attSuccess : Att → Bool
  | .resp s ok _ => s == 200 && ok
  | .exc _ => false

/-- The error text `send_file` extracts from a failed attempt:
`resp.json().get('description', 'Unknown error')`, or `str(e)` for an
exception. -/
def attError : Att → Str
  | .resp _ _ d => d.getD (str "Unknown error")
  | .exc m => m

/-- The observable result of one `send_file` call: the returned
`(success, error)` pair, how many HTTP attempts were consumed, the
sequence of `time.sleep` durations performed, and whether the
post-loop `return False, "Max retries exceeded"` was reached. -/
structure SendResult where
  success : Bool
  error : Option Str
  attempts : Nat
  sleeps : List Nat
  usedFallback : Bool
deriving DecidableEq

/-- The body of `send_file`'s `for attempt in range(2)` loop, given the
outcome `o a` of the HTTP POST at each attempt index `a`.  The list
argument is the remaining attempt indices; the empty case is the
fall-through `return False, "Max retries exceeded"` after the loop. -/
def send_file_go (o : Nat → Att) (attempts : Nat) (sleeps : List Nat) :
    List Nat → SendResult
  | [] => ⟨false, some (str "Max retries exceeded"), attempts, sleeps, true⟩
  | a :: rest =>
    match o a with
    | .exc m =>
      if a == 0 then send_file_go o (attempts + 1) (sleeps ++ [2]) rest
      else ⟨false, some m, attempts + 1, sleeps, false⟩
    | .resp s ok d =>
      if s == 200 && ok then ⟨true, none, attempts + 1, sleeps, false⟩
      else
        if a == 0 then send_file_go o (attempts + 1) (sleeps ++ [2]) rest
        else ⟨false, some (d.getD (str "Unknown error")), attempts + 1, sleeps, false⟩

/-- `send_file` from `send_reports.py` (identical in
`send_reports_test.py`): two-attempt loop over `range(2)`. -/
def send_file (o : Nat → Att) : SendResult :=
  send_file_go o 0 [] [0, 1]

/-- One `SE_Name_ID` recipient folder as seen by `main` of
`send_reports.py`: display name, chat id, and directory contents. -/
structure SEFolder where
  name : Str
  chat_id : Str
  files : List FileEntry

/-- One entry of the `results` list built by `main`: per-recipient
lists of sent file names and of `{name, error}` failure records. -/
structure DOutcome where
  name : Str
  chat_id : Str
  sent : List Str
  failed : List (Str × Option Str)
deriving DecidableEq

/-- The inner file loop of `main`: sends each valid file via
`send_file` (the network outcome for attempt `a` of file `n` sent to
chat `cid` is `oracle cid n a`), appending to the sent/failed lists
and incrementing the `total_sent` / `total_failed` counters. -/
def sendAll (oracle : Str → Str → Nat → Att) (cid : Str) :
    List FileEntry → Nat → Nat → List Str × List (Str × Option Str) × Nat × Nat
  | [], ts, tf => ([], [], ts, tf)
  | f :: rest, ts, tf =>
    let r := send_file (oracle cid f.name)
    if r.success then
      let q := sendAll oracle cid rest (ts + 1) tf
      (f.name :: q.1, q.2.1, q.2.2.1, q.2.2.2)
    else
      let q := sendAll oracle cid rest ts (tf + 1)
      (q.1, (f.name, r.error) :: q.2.1, q.2.2.1, q.2.2.2)

/-- The outer recipient loop of `main` in `send_reports.py`: filters
each folder's entries with `x.is_file() and is_valid_file(x)`,
dispatches them, and accumulates the `results` list and the running
`total_sent` / `total_failed` counters. -/
def runSender (oracle : Str → Str → Nat → Att) :
    List SEFolder → Nat → Nat → List DOutcome × Nat × Nat
  | [], ts, tf => ([], ts, tf)
  | fd :: rest, ts, tf =>
    let vf := fd.files.filter dispatchFilter
    let q := sendAll oracle fd.chat_id vf ts tf
    let r := runSender oracle rest q.2.2.1 q.2.2.2
    (⟨fd.name, fd.chat_id, q.1, q.2.1⟩ :: r.1, r.2.1, r.2.2)

/-- One line of the delivery report built by `main` of
`send_reports.py` (lines 139-162), one constructor per distinct
`f`-string appended to the `report` list. -/
inductive RLine where
  | header (stamp : Str)
  | rule
  | totalSEs (n : Nat)
  | totalSent (n : Nat)
  | totalFailed (n : Nat)
  | blank
  | recipient (name chat : Str)
  | sentHeader (n : Nat)
  | sentBullet (f : Str)
  | failedHeader (n : Nat)
  | failedBullet (f : Str) (e : Option Str)
  | summary (sent failed : Nat)
deriving DecidableEq

/-- The per-recipient block of the report: header line, then (when
nonempty, per Python truthiness) the sent section and the failed
section, then a blank line. -/
def renderRecipient (r : DOutcome) : List RLine :=
  [RLine.recipient r.name r.chat_id]
    ++ (if r.sent.isEmpty then []
        else RLine.sentHeader r.sent.length :: r.sent.map RLine.sentBullet)
    ++ (if r.failed.isEmpty then []
        else RLine.failedHeader r.failed.length
          :: r.failed.map (fun p => RLine.failedBullet p.1 p.2))
    ++ [RLine.blank]

/-- The full report of `main` (`send_reports.py` lines 139-162):
header block with the totals, one block per recipient, and the
trailing summary line. -/
def renderReport (stamp : Str) (nFolders : Nat) (rs : List DOutcome)
    (ts tf : Nat) : List RLine :=
  [RLine.header stamp, RLine.rule, RLine.totalSEs nFolders,
    RLine.totalSent ts, RLine.totalFailed tf, RLine.rule, RLine.blank]
    ++ (rs.map renderRecipient).flatten
    ++ [RLine.rule, RLine.summary ts tf]

/-- Report lines that name one dispatched file (the `      • …`
bullets of the sent and failed sections). -/
def isBullet : RLine → Bool
  | .sentBullet _ => true
  | .failedBullet _ _ => true
  | _ => false

/-! ### `create_se_folders.py` -/

/-- What the filesystem holds at a candidate folder path. -/
inductive PathKind where
  | absent
  | dir
  | file
deriving DecidableEq

/-- Filesystem state: what each folder name under the parent directory
currently resolves to. -/
def FS := Str → PathKind

/-- Outcome printed for one roster entry by the creation loop of
`create_se_folders.py` (lines 81-100). -/
inductive BOutcome where
  | created
  | existed
  | conflict
  | failedErr
deriving DecidableEq

/-- One iteration of the creation loop: `exists`/`is_dir` dispatch,
then `mkdir`, whose OS-level failure is modelled by the oracle
`mf` (an `mkdir` on name `n` raises iff `mf n = true`). -/
def mkStep (mf : Str → Bool) (fs : FS) (n : Str) : BOutcome × FS :=
  match fs n with
  | .dir => (.existed, fs)
  | .file => (.conflict, fs)
  | .absent =>
    if mf n then (.failedErr, fs)
    else (.created, fun s => if s = n then .dir else fs s)

/-- The whole creation loop over the accepted entries' folder names,
threading the filesystem state and collecting one outcome per row. -/
def runBuilder (mf : Str → Bool) (fs : FS) : List Str → List BOutcome × FS
  | [] => ([], fs)
  | n :: rest =>
    let p := mkStep mf fs n
    let q := runBuilder mf p.2 rest
    (p.1 :: q.1, q.2)

/-- The outcome list of one builder run. -/
def outcomesOf (mf : Str → Bool) (fs : FS) (names : List Str) : List BOutcome :=
  (runBuilder mf fs names).1

/-- The `stats` dictionary of `create_se_folders.py`. -/
structure BStats where
  created : Nat
  existed : Nat
  failed : Nat
  conflict : Nat
deriving DecidableEq

/-- The counter updates of the creation loop.  Note the conflict
branch increments BOTH `stats["conflict"]` and `stats["failed"]`,
exactly as lines 91-92 of `create_se_folders.py` do. -/
def statsStep (s : BStats) : BOutcome → BStats
  | .created => { s with created := s.created + 1 }
  | .existed => { s with existed := s.existed + 1 }
  | .conflict => { s with conflict := s.conflict + 1, failed := s.failed + 1 }
  | .failedErr => { s with failed := s.failed + 1 }

/-- The final `stats` of a run with the given outcome list. -/
def statsOf (os : List BOutcome) : BStats :=
  os.foldl statsStep ⟨0, 0, 0, 0⟩

/-- One accepted row of the roster scan (lines 44-59 of
`create_se_folders.py`): its 1-based row index and the stripped cell
text used as the folder name. -/
structure BEntry where
  row : Nat
  folder_name : Str
deriving DecidableEq

/-- The row scan of `create_se_folders.py`, starting at row index
`idx`: skip row 1 (header), skip `None`/non-string cells (`none`) and
empty strings (both falsy), strip the cell, and skip names that end in
`'.'` or `' '` after stripping. -/
def entriesGo : Nat → List (Option Str) → List BEntry
  | _, [] => []
  | idx, cell :: rest =>
    let tail := entriesGo (idx + 1) rest
    if idx = 1 then tail
    else
      match cell with
      | none => tail
      | some v =>
        if v = [] then tail
        else
          let fn := stripWs v
          if endsDotOrSpace fn then tail
          else ⟨idx, fn⟩ :: tail

/-- The `entries` list built from column J (rows enumerated from 1). -/
def entriesOf (rows : List (Option Str)) : List BEntry :=
  entriesGo 1 rows

/-- The record returned by `parse_folder_name` of
`send_reports_test.py`. -/
structure ParsedFolder where
  area : Str
  role : Str
  chat_id : Str
  name : Str
  display_name : Str
deriving DecidableEq

/-- `parse_folder_name` from `send_reports_test.py`: strip, split on
`'_'`, require at least 4 parts, require an all-digit chat id, and
rebuild the display name. -/
def parse_folder_name (folder_name : Str) : Option ParsedFolder :=
  match pySplit '_' (stripWs folder_name) with
  | area :: role :: chat_id :: name_parts =>
    if name_parts.length = 0 then none
    else if ¬ isDigits chat_id then none
    else
      let name := joinSpace name_parts
      some ⟨area, role, chat_id, name, name ++ str " (" ++ role ++ str ")"⟩
  | _ => none

/-- Per-row acceptance of the roster scan, written as a single row
function (used to characterize `entriesOf` as a `filterMap` over the
1-based enumeration of the rows): the row is skipped when it is the
header row 1, when its cell is `None`/non-string or the empty string,
or when the stripped cell ends in `'.'` or `' '`; otherwise the
stripped cell becomes the attempted folder name.  No four-segment
parse and no digit check occurs anywhere in it. -/
def rowFilterSpec (idx : Nat) (cell : Option Str) : Option BEntry :=
  match cell with
  | none => none
  | some v =>
    if idx = 1 then none
    else if v = [] then none
    else if endsDotOrSpace (stripWs v) then none
    else some ⟨idx, stripWs v⟩

/-! ### Concrete inputs used by witnesses and counterexamples -/

/-- A roster whose rows 2 and 3 hold the same folder name (row 1 is
the skipped header). -/
def demoRows : List (Option Str) :=
  [some (str "h"), some (str "A_B_1_N"), some (str "A_B_1_N")]

/-- One recipient folder holding a valid file, an editor lock file and
a tiny file. -/
def demoFolder : SEFolder :=
  ⟨str "Vanda", str "123",
    [⟨str "good.xlsx", 6000, true⟩, ⟨str "~tmp.xlsx", 9999, true⟩,
      ⟨str "small.xlsx", 10, true⟩]⟩

/-- A network in which every HTTP attempt succeeds. -/
def demoOracle : Str → Str → Nat → Att := fun _ _ _ => Att.resp 200 true none

/-- An endpoint that always fails with an EMPTY `description` string
(`{"ok": false, "description": ""}`). -/
def emptyDescOracle : Nat → Att := fun _ => Att.resp 400 false (some [])

/-! ### Executable sanity checks of the embedding
(concrete evaluations pinning the Python semantics of the embedded
primitives) -/
example : pySplit '_' (str "a_b") = [str "a", str "b"] := by decide
example : pySplit '_' (str "_b") = [[], str "b"] := by decide
example : pySplit '_' (str "") = [[]] := by decide
example : pyStem (str "A04_Uy Naro.xlsx") = str "A04_Uy Naro" := by decide
example : pyStem (str ".bashrc") = str ".bashrc" := by decide
example : pyStem (str "abc.") = str "abc." := by decide
example : pyStem (str "a.b.c") = str "a.b" := by decide
example : extract_name_from_filename (str "A04_Uy Naro.xlsx") = str "Uy Naro" := by decide
example : extract_name_from_filename (str "report.xlsx") = str "report" := by decide
example :
    find_best_match (str "Uy Naro") [str "zz uy naro zz", str "A04_SE_813_Uy Naro"]
      = (some (str "A04_SE_813_Uy Naro"), 100) := by decide
example :
    find_best_match (str "") [str "A04_SE_813_Uy Naro"]
      = (some (str "A04_SE_813_Uy Naro"), 80) := by decide
example : pyWords (str "  uy  naro ") = [str "uy", str "naro"] := by decide
example : pyWords (str "") = [] := by decide
example : is_valid_file ⟨str "report.xlsx", 5000, true⟩ = true := by decide
example : is_valid_file ⟨str "~lock", 99999, true⟩ = false := by decide
example : is_valid_file ⟨str "a.xlsx", 4999, true⟩ = false := by decide
example :
    send_file (fun _ => Att.resp 400 false (some []))
      = ⟨false, some [], 2, [2], false⟩ := by decide
example :
    send_file (fun a => if a = 0 then Att.exc (str "boom") else Att.resp 200 true none)
      = ⟨true, none, 2, [2], false⟩ := by decide
example :
    send_file (fun _ => Att.resp 200 true none) = ⟨true, none, 1, [], false⟩ := by decide
example :
    send_file (fun _ => Att.exc (str "down"))
      = ⟨false, some (str "down"), 2, [2], false⟩ := by decide
example :
    send_file (fun _ => Att.resp 500 false none)
      = ⟨false, some (str "Unknown error"), 2, [2], false⟩ := by decide
example :
    outcomesOf (fun _ => false) (fun _ => PathKind.absent) [str "A", str "A"]
      = [BOutcome.created, BOutcome.existed] := by decide
example :
    statsOf [BOutcome.conflict] = ⟨0, 0, 1, 1⟩ := by decide
example :
    entriesOf [some (str "h"), some (str "hello")] = [⟨2, str "hello"⟩] := by decide
example : parse_folder_name (str "hello") = none := by decide
example :
    parse_folder_name (str "A04_SE_813_Uy Naro")
      = some ⟨str "A04", str "SE", str "813", str "Uy Naro", str "Uy Naro (SE)"⟩ := by
  decide
example : parse_folder_name (str "A04_SE_81x_Uy") = none := by decide
example : parse_folder_name (str "A04_SE__Uy") = none := by decide

/-! ## Helper lemmas -/

theorem send_file_spec (o : Nat → Att) :
    send_file o =
      ⟨attSuccess (o 0) || attSuccess (o 1),
        if (attSuccess (o 0) || attSuccess (o 1)) = true then none
          else some (attError (o 1)),
        if attSuccess (o 0) = true then 1 else 2,
        if attSuccess (o 0) = true then [] else [2],
        false⟩ := by
  rcases h0 : o 0 with ⟨s0, k0, d0⟩ | m0 <;> rcases h1 : o 1 with ⟨s1, k1, d1⟩ | m1 <;>
    simp only [send_file, send_file_go, h0, h1, attSuccess, attError] <;>
    split_ifs <;> simp_all <;> aesop

/-! ## Claims about `send_file` (C1, C10) -/

/-- Claim C1 (amended): for every file dispatched by `send_file`, at
most 2 HTTP attempts are made, with one fixed 2-time-unit sleep
performed exactly when the first attempt fails; if the endpoint fails
once then succeeds the file is recorded as sent with exactly 2
attempts; if it fails on both attempts the file is recorded as failed
with exactly 2 attempts and an error message equal to the final
attempt's provider description (`"Unknown error"` when the response
carries none) or the raised exception's message — a message that is
non-empty whenever that text is, but empty when the provider supplies
an empty description (the original claim's unconditional
non-emptiness fails; see the counterexample). -/
theorem claim_C1_retry_policy (o : Nat → Att) :
    (send_file o).attempts ≤ 2
    ∧ (send_file o).sleeps = (if attSuccess (o 0) = true then [] else [2])
    ∧ (send_file o).attempts = (if attSuccess (o 0) = true then 1 else 2)
    ∧ (send_file o).success = (attSuccess (o 0) || attSuccess (o 1))
    ∧ (send_file o).error =
        (if (attSuccess (o 0) || attSuccess (o 1)) = true then none
          else some (attError (o 1))) := by
  rw [send_file_spec]
  refine ⟨?_, rfl, rfl, rfl, rfl⟩
  by_cases h : attSuccess (o 0) = true <;> simp [h]

/-- Claim C1, counterexample to the original wording: against an
endpoint that always answers `{"ok": false, "description": ""}`, the
file is recorded as failed after 2 attempts, but the recorded error
message is the EMPTY string — not a non-empty message — and in
particular not the literal fallback `"Max retries exceeded"`. -/
theorem claim_C1_counterexample :
    (send_file emptyDescOracle).success = false
    ∧ (send_file emptyDescOracle).attempts = 2
    ∧ (send_file emptyDescOracle).error = some []
    ∧ ([] : Str).length = 0
    ∧ (send_file emptyDescOracle).error ≠ some (str "Max retries exceeded") := by
  decide

/-- Claim C10: `send_file` always returns from inside its two-attempt
loop — the post-loop fallback `return False, "Max retries exceeded"`
is never reached — and whenever the call fails, the recorded error is
exactly the final (second) attempt's provider description
(`"Unknown error"` when absent) or raised exception message. -/
theorem claim_C10_fallback_unreachable (o : Nat → Att) :
    (send_file o).usedFallback = false
    ∧ (send_file o).error =
        (if (send_file o).success = true then none
          else some (attError (o 1))) := by
  rw [send_file_spec]
  refine ⟨rfl, ?_⟩
  by_cases h : (attSuccess (o 0) || attSuccess (o 1)) = true <;> simp [h]

/-! ## Claims about file eligibility (C2) -/

theorem sendAll_name_mem (oracle : Str → Str → Nat → Att) (cid : Str) :
    ∀ (fl : List FileEntry) (ts tf : Nat) (n : Str),
      (n ∈ (sendAll oracle cid fl ts tf).1
        ∨ ∃ e, (n, e) ∈ (sendAll oracle cid fl ts tf).2.1) →
      ∃ x ∈ fl, x.name = n := by
  intro fl
  induction fl with
  | nil => intro ts tf n h; simp [sendAll] at h
  | cons f rest ih =>
    intro ts tf n h
    by_cases hs : (send_file (oracle cid f.name)).success = true <;>
      simp only [sendAll, hs, if_true, if_false, Bool.false_eq_true, if_pos, if_neg,
        not_false_eq_true, List.mem_cons, Prod.mk.injEq] at h
    · rcases h with (rfl | h) | ⟨e, he⟩
      · exact ⟨f, by simp⟩
      · rcases ih (ts + 1) tf n (Or.inl h) with ⟨x, hx, hxn⟩
        exact ⟨x, by simp [hx], hxn⟩
      · rcases ih (ts + 1) tf n (Or.inr ⟨e, he⟩) with ⟨x, hx, hxn⟩
        exact ⟨x, by simp [hx], hxn⟩
    · rcases h with h | ⟨e, ⟨hne, _⟩ | he⟩
      · rcases ih ts (tf + 1) n (Or.inl h) with ⟨x, hx, hxn⟩
        exact ⟨x, by simp [hx], hxn⟩
      · exact ⟨f, by simp, hne.symm⟩
      · rcases ih ts (tf + 1) n (Or.inr ⟨e, he⟩) with ⟨x, hx, hxn⟩
        exact ⟨x, by simp [hx], hxn⟩

theorem runSender_sound (oracle : Str → Str → Nat → Att) :
    ∀ (folders : List SEFolder) (ts tf : Nat) (r : DOutcome),
      r ∈ (runSender oracle folders ts tf).1 →
      ∃ fd ∈ folders, ∀ n, (n ∈ r.sent ∨ ∃ e, (n, e) ∈ r.failed) →
        ∃ x ∈ fd.files, x.name = n ∧ dispatchFilter x = true := by
  intro folders
  induction folders with
  | nil => intro ts tf r h; simp [runSender] at h
  | cons fd rest ih =>
    intro ts tf r h
    simp only [runSender, List.mem_cons] at h
    rcases h with rfl | h
    · refine ⟨fd, by simp, ?_⟩
      intro n hn
      have hm := sendAll_name_mem oracle fd.chat_id
        (fd.files.filter dispatchFilter) ts tf n hn
      rcases hm with ⟨x, hx, hxn⟩
      rw [List.mem_filter] at hx
      exact ⟨x, hx.1, hxn, hx.2⟩
    · rcases ih _ _ _ h with ⟨fd2, hfd2, hp⟩
      exact ⟨fd2, by simp [hfd2], hp⟩

/-- Claim C2 (amended): a candidate file is dispatched only if it is a
regular file accepted by the filter; the stricter variant
(`is_valid_file`) accepts exactly the files whose name starts with
neither `'~'` nor `'.'` and whose size is AT LEAST 5000 bytes (size
exactly 5000 qualifies — the original "strictly exceeds" fails there,
see the counterexample); the date-subfolder dispatch variant requires
size strictly over 5000 on regular files; incoming-report scanning
requires size strictly over 1000; and no file rejected by the
dispatch filter is ever sent (or even attempted). -/
theorem claim_C2_eligibility :
    (∀ f : FileEntry, is_valid_file f = true ↔
        (startsWithChar '~' f.name = false ∧ startsWithChar '.' f.name = false
          ∧ 5000 ≤ f.size))
    ∧ (∀ f : FileEntry, dateVariantFilter f = true ↔ (f.isFile = true ∧ 5000 < f.size))
    ∧ (∀ f : FileEntry, incomingFilter f = true ↔ 1000 < f.size)
    ∧ (∀ (oracle : Str → Str → Nat → Att) (folders : List SEFolder) (r : DOutcome),
        r ∈ (runSender oracle folders 0 0).1 →
        ∀ n, (n ∈ r.sent ∨ ∃ e, (n, e) ∈ r.failed) →
          ∃ fd ∈ folders, ∃ x ∈ fd.files,
            x.name = n ∧ x.isFile = true ∧ is_valid_file x = true) := by
  refine ⟨?_, ?_, ?_, ?_⟩
  · intro f
    unfold is_valid_file
    split_ifs with h1 h2
    · simp only [Bool.or_eq_true] at h1
      rcases h1 with h | h <;> simp [h]
    · simp only [Bool.or_eq_true, not_or, Bool.not_eq_true] at h1
      simp only [h1.1, h1.2, true_and]
      constructor
      · intro hf; cases hf
      · omega
    · simp only [Bool.or_eq_true, not_or, Bool.not_eq_true] at h1
      simp only [h1.1, h1.2, true_and]
      constructor
      · intro _; omega
      · intro _; trivial
  · intro f
    unfold dateVariantFilter
    constructor
    · intro h; rcases Bool.and_eq_true .. |>.mp h with ⟨h1, h2⟩
      exact ⟨h1, by simpa using h2⟩
    · intro ⟨h1, h2⟩; simp [h1, h2]
  · intro f
    unfold incomingFilter
    simp
  · intro oracle folders r hr n hn
    rcases runSender_sound oracle folders 0 0 r hr with ⟨fd, hfd, hp⟩
    rcases hp n hn with ⟨x, hx, hxn, hdf⟩
    rcases Bool.and_eq_true .. |>.mp hdf with ⟨hif, hv⟩
    exact ⟨fd, hfd, x, hx, hxn, hif, hv⟩

/-- Claim C2, counterexample to the original wording: a regular file
of size exactly 5000 bytes does NOT strictly exceed the 5000-byte
threshold, yet `is_valid_file` accepts it for dispatch. -/
theorem claim_C2_counterexample :
    is_valid_file ⟨str "report.xlsx", 5000, true⟩ = true ∧ ¬ (5000 < 5000) := by
  decide

/-- Claim C2, witness: in a concrete run over `demoFolder` only the
valid regular file is dispatched, and the theorem recovers it with
its filter facts. -/
theorem claim_C2_eligibility_witness :
    ∃ fd ∈ [demoFolder], ∃ x ∈ fd.files,
      x.name = str "good.xlsx" ∧ x.isFile = true ∧ is_valid_file x = true :=
  claim_C2_eligibility.2.2.2 demoOracle [demoFolder]
    ⟨str "Vanda", str "123", [str "good.xlsx"], []⟩ (by decide)
    (str "good.xlsx") (Or.inl (by decide))

/-! ## Claims about the Folder Registry Builder (C3, C4, C5) -/

theorem outcomesOf_length (mf : Str → Bool) :
    ∀ (names : List Str) (fs : FS),
      (outcomesOf mf fs names).length = names.length := by
  intro names
  induction names with
  | nil => intro fs; rfl
  | cons n rest ih =>
    intro fs
    simp only [outcomesOf, runBuilder, List.length_cons]
    exact congrArg (· + 1) (ih _)

theorem statsOf_foldl :
    ∀ (os : List BOutcome) (s : BStats),
      os.foldl statsStep s =
        ⟨s.created + os.count .created, s.existed + os.count .existed,
          s.failed + os.count .conflict + os.count .failedErr,
          s.conflict + os.count .conflict⟩ := by
  intro os
  induction os with
  | nil => intro s; simp [List.count_nil]
  | cons o rest ih =>
    intro s
    rw [List.foldl_cons, ih]
    cases o <;> simp [statsStep, List.count_cons, BStats.mk.injEq] <;> omega

theorem statsOf_counts (os : List BOutcome) :
    statsOf os =
      ⟨os.count .created, os.count .existed,
        os.count .conflict + os.count .failedErr, os.count .conflict⟩ := by
  unfold statsOf
  rw [statsOf_foldl]
  simp

theorem count_outcomes_total :
    ∀ os : List BOutcome,
      os.count .created + os.count .existed + os.count .conflict
        + os.count .failedErr = os.length := by
  intro os
  induction os with
  | nil => simp
  | cons o rest ih => cases o <;> simp [List.count_cons] <;> omega

/-- Claim C3 (amended): each accepted roster row receives exactly one
of the four outcomes (one outcome per row), and the `created`,
`existed` and `failed` counters sum to the number of accepted rows —
but the `conflict` counter is a sub-count of `failed` (every conflict
row increments BOTH `stats["conflict"]` and `stats["failed"]`), so
the FOUR counters sum to the number of accepted rows plus the number
of conflicts, not to the number of accepted rows (see the
counterexample). -/
theorem claim_C3_outcome_accounting (mf : Str → Bool) (fs : FS)
    (rows : List (Option Str)) :
    let names := (entriesOf rows).map BEntry.folder_name
    let st := statsOf (outcomesOf mf fs names)
    (outcomesOf mf fs names).length = names.length
    ∧ st.created + st.existed + st.failed = names.length
    ∧ st.conflict ≤ st.failed
    ∧ st.created + st.existed + st.conflict + st.failed
        = names.length + st.conflict := by
  intro names st
  have hlen := outcomesOf_length mf names fs
  have hst : st = statsOf (outcomesOf mf fs names) := rfl
  rw [statsOf_counts] at hst
  have htot := count_outcomes_total (outcomesOf mf fs names)
  refine ⟨hlen, ?_, ?_, ?_⟩ <;> rw [hst] <;> simp only [] <;> omega

/-- Claim C3, counterexample to the original wording: one accepted row
whose path already exists as a FILE is classified as a conflict, and
the run's four counters are `created = 0, existed = 0, failed = 1,
conflict = 1` — summing to 2, not to the 1 accepted row. -/
theorem claim_C3_counterexample :
    statsOf (outcomesOf (fun _ => false) (fun _ => PathKind.file) [str "x"])
        = ⟨0, 0, 1, 1⟩
    ∧ 0 + 0 + 1 + 1 ≠ 1
    ∧ [str "x"].length = 1 := by
  decide

theorem entriesGo_filterMap :
    ∀ (rows : List (Option Str)) (k : Nat),
      entriesGo k rows
        = (List.enumFrom k rows).filterMap (fun p => rowFilterSpec p.1 p.2) := by
  intro rows
  induction rows with
  | nil => intro k; rfl
  | cons cell rest ih =>
    intro k
    cases cell with
    | none =>
      by_cases hk : k = 1 <;>
        simp [entriesGo, rowFilterSpec, List.enumFrom, hk, ih]
    | some v =>
      by_cases hk : k = 1
      · simp [entriesGo, rowFilterSpec, List.enumFrom, hk, ih]
      · by_cases hv : v = []
        · simp [entriesGo, rowFilterSpec, List.enumFrom, hk, hv, ih]
        · by_cases he : endsDotOrSpace (stripWs v) = true
          · simp [entriesGo, rowFilterSpec, List.enumFrom, hk, hv, he, ih]
          · simp [entriesGo, rowFilterSpec, List.enumFrom, hk, hv, he, ih]

/-- Claim C4 (amended): the Folder Registry Builder's row scan is
exactly a per-row filter over the 1-based enumeration of column J: it
skips the header row 1, rows whose cell is `None`/non-string or the
empty string, and rows whose stripped cell ends in `'.'` or `' '`
(after stripping only a trailing period can remain); EVERY other row
leads to a directory-creation attempt for the stripped cell text.  No
four-or-more-segment form and no all-digit chat-id is required — that
validation lives only in `parse_folder_name` of the dispatch variant
(see the counterexample, where an unparseable one-word row is
attempted). -/
theorem claim_C4_row_filter (rows : List (Option Str)) :
    entriesOf rows
      = (List.enumFrom 1 rows).filterMap (fun p => rowFilterSpec p.1 p.2) :=
  entriesGo_filterMap rows 1

/-- Claim C4, counterexample to the original wording: the roster row
`"hello"` is not parseable as the four-segment `Area_Role_ChatId_Name`
form (`parse_folder_name` rejects it), yet the builder accepts it and
a directory-creation attempt for it takes place (outcome `created`). -/
theorem claim_C4_counterexample :
    entriesOf [some (str "h"), some (str "hello")] = [⟨2, str "hello"⟩]
    ∧ parse_folder_name (str "hello") = none
    ∧ outcomesOf (fun _ => false) (fun _ => PathKind.absent)
        ((entriesOf [some (str "h"), some (str "hello")]).map BEntry.folder_name)
      = [BOutcome.created] := by
  decide

theorem mkStep_preserve (mf : Str → Bool) (fs : FS) (n s : Str)
    (h : fs s ≠ PathKind.absent) : (mkStep mf fs n).2 s = fs s := by
  unfold mkStep
  cases hn : fs n with
  | dir => rfl
  | file => rfl
  | absent =>
    by_cases hmf : mf n = true
    · simp [hmf]
    · simp only [hmf, Bool.false_eq_true, if_false]
      by_cases hsn : s = n
      · subst hsn; exact absurd hn h
      · simp [hsn]

theorem mkStep_absent (mf : Str → Bool) (fs : FS) (n s : Str)
    (h : (mkStep mf fs n).2 s = PathKind.absent) : fs s = PathKind.absent := by
  by_cases ha : fs s = PathKind.absent
  · exact ha
  · rw [mkStep_preserve mf fs n s ha] at h; exact h

theorem mkStep_fst_created (mf : Str → Bool) (fs : FS) (n : Str) :
    (mkStep mf fs n).1 = BOutcome.created ↔
      (fs n = PathKind.absent ∧ mf n = false) := by
  unfold mkStep
  cases hn : fs n <;> by_cases hmf : mf n = true <;> simp_all

theorem mkStep_post (mf : Str → Bool) (fs : FS) (n : Str) :
    (mkStep mf fs n).2 n ≠ PathKind.absent ∨ mf n = true := by
  unfold mkStep
  cases hn : fs n with
  | dir => left; simp [hn]
  | file => left; simp [hn]
  | absent =>
    by_cases hmf : mf n = true
    · right; exact hmf
    · left; simp [hmf]

theorem runBuilder_preserve (mf : Str → Bool) :
    ∀ (names : List Str) (fs : FS) (s : Str), fs s ≠ PathKind.absent →
      (runBuilder mf fs names).2 s = fs s := by
  intro names
  induction names with
  | nil => intro fs s _; rfl
  | cons m rest ih =>
    intro fs s h
    simp only [runBuilder]
    rw [ih (mkStep mf fs m).2 s, mkStep_preserve mf fs m s h]
    rw [mkStep_preserve mf fs m s h]; exact h

theorem runBuilder_absent (mf : Str → Bool) :
    ∀ (names : List Str) (fs : FS) (s : Str),
      (runBuilder mf fs names).2 s = PathKind.absent → fs s = PathKind.absent := by
  intro names
  induction names with
  | nil => intro fs s h; exact h
  | cons m rest ih =>
    intro fs s h
    simp only [runBuilder] at h
    exact mkStep_absent mf fs m s (ih _ s h)

theorem runBuilder_mem_absent (mf : Str → Bool) :
    ∀ (names : List Str) (fs : FS) (n : Str), n ∈ names →
      (runBuilder mf fs names).2 n = PathKind.absent → mf n = true := by
  intro names
  induction names with
  | nil => intro fs n h; simp at h
  | cons m rest ih =>
    intro fs n hmem habs
    simp only [runBuilder] at habs
    have habs2 : (mkStep mf fs m).2 n = PathKind.absent :=
      runBuilder_absent mf rest _ n habs
    rcases List.mem_cons.mp hmem with rfl | hmem2
    · rcases mkStep_post mf fs n with hne | hmf
      · exact absurd habs2 hne
      · exact hmf
    · exact ih _ n hmem2 habs

theorem no_created_of_inv (mf : Str → Bool) :
    ∀ (names : List Str) (fs : FS),
      (∀ n ∈ names, fs n = PathKind.absent → mf n = true) →
      ∀ i : Nat, (outcomesOf mf fs names)[i]? ≠ some BOutcome.created := by
  intro names
  induction names with
  | nil => intro fs _ i; simp [outcomesOf, runBuilder]
  | cons m rest ih =>
    intro fs hinv i
    cases i with
    | zero =>
      simp only [outcomesOf, runBuilder, List.getElem?_cons_zero]
      intro hc
      rw [Option.some_inj] at hc
      rcases (mkStep_fst_created mf fs m).mp hc with ⟨habs, hmf⟩
      rw [hinv m (by simp) habs] at hmf
      cases hmf
    | succ i2 =>
      simp only [outcomesOf, runBuilder, List.getElem?_cons_succ]
      apply ih
      intro n hn habs
      exact hinv n (by simp [hn]) (mkStep_absent mf fs m n habs)

theorem outcome_of_dir (mf : Str → Bool) :
    ∀ (names : List Str) (fs : FS) (i : Nat) (n : Str),
      names[i]? = some n → fs n = PathKind.dir →
      (outcomesOf mf fs names)[i]? = some BOutcome.existed := by
  intro names
  induction names with
  | nil => intro fs i n h; simp at h
  | cons m rest ih =>
    intro fs i n hget hdir
    cases i with
    | zero =>
      rw [List.getElem?_cons_zero, Option.some_inj] at hget
      subst hget
      simp only [outcomesOf, runBuilder, List.getElem?_cons_zero]
      unfold mkStep
      rw [hdir]
    | succ i2 =>
      rw [List.getElem?_cons_succ] at hget
      simp only [outcomesOf, runBuilder, List.getElem?_cons_succ]
      refine ih _ i2 n hget ?_
      rw [mkStep_preserve mf fs m n (by simp [hdir])]
      exact hdir

theorem created_final_dir (mf : Str → Bool) :
    ∀ (names : List Str) (fs : FS) (i : Nat),
      (outcomesOf mf fs names)[i]? = some BOutcome.created →
      ∃ n, names[i]? = some n ∧ (runBuilder mf fs names).2 n = PathKind.dir := by
  intro names
  induction names with
  | nil => intro fs i h; simp [outcomesOf, runBuilder] at h
  | cons m rest ih =>
    intro fs i h
    cases i with
    | zero =>
      simp only [outcomesOf, runBuilder, List.getElem?_cons_zero,
        Option.some_inj] at h
      rcases (mkStep_fst_created mf fs m).mp h with ⟨habs, hmf⟩
      refine ⟨m, by simp, ?_⟩
      simp only [runBuilder]
      rw [runBuilder_preserve mf rest (mkStep mf fs m).2 m]
      · unfold mkStep; rw [habs]; simp [hmf]
      · unfold mkStep; rw [habs]; simp [hmf]
    | succ i2 =>
      simp only [outcomesOf, runBuilder, List.getElem?_cons_succ] at h
      rcases ih _ i2 h with ⟨n, hget, hdir⟩
      refine ⟨n, by simpa using hget, ?_⟩
      simp only [runBuilder]
      exact hdir

theorem no_created_of_nonabsent (mf : Str → Bool) :
    ∀ (names : List Str) (fs : FS) (j : Nat) (n : Str),
      names[j]? = some n → fs n ≠ PathKind.absent →
      (outcomesOf mf fs names)[j]? ≠ some BOutcome.created := by
  intro names
  induction names with
  | nil => intro fs j n h; simp at h
  | cons m rest ih =>
    intro fs j n hget hne
    cases j with
    | zero =>
      rw [List.getElem?_cons_zero, Option.some_inj] at hget
      subst hget
      simp only [outcomesOf, runBuilder, List.getElem?_cons_zero]
      intro hc
      rw [Option.some_inj] at hc
      exact hne ((mkStep_fst_created mf fs m).mp hc).1
    | succ j2 =>
      rw [List.getElem?_cons_succ] at hget
      simp only [outcomesOf, runBuilder, List.getElem?_cons_succ]
      refine ih _ j2 n hget ?_
      rw [mkStep_preserve mf fs m n hne]
      exact hne

theorem no_created_of_mf (mf : Str → Bool) :
    ∀ (names : List Str) (fs : FS) (j : Nat) (n : Str),
      names[j]? = some n → mf n = true →
      (outcomesOf mf fs names)[j]? ≠ some BOutcome.created := by
  intro names
  induction names with
  | nil => intro fs j n h; simp at h
  | cons m rest ih =>
    intro fs j n hget hmf
    cases j with
    | zero =>
      rw [List.getElem?_cons_zero, Option.some_inj] at hget
      subst hget
      simp only [outcomesOf, runBuilder, List.getElem?_cons_zero]
      intro hc
      rw [Option.some_inj] at hc
      rw [((mkStep_fst_created mf fs m).mp hc).2] at hmf
      cases hmf
    | succ j2 =>
      rw [List.getElem?_cons_succ] at hget
      simp only [outcomesOf, runBuilder, List.getElem?_cons_succ]
      exact ih _ j2 n hget hmf

theorem dup_not_created (mf : Str → Bool) :
    ∀ (names : List Str) (fs : FS) (i j : Nat) (n : Str), i < j →
      names[i]? = some n → names[j]? = some n →
      (outcomesOf mf fs names)[j]? ≠ some BOutcome.created := by
  intro names
  induction names with
  | nil => intro fs i j n _ h; simp at h
  | cons m rest ih =>
    intro fs i j n hij hi hj
    cases j with
    | zero => omega
    | succ j2 =>
      rw [List.getElem?_cons_succ] at hj
      simp only [outcomesOf, runBuilder, List.getElem?_cons_succ]
      cases i with
      | zero =>
        rw [List.getElem?_cons_zero, Option.some_inj] at hi
        subst hi
        rcases mkStep_post mf fs m with hne | hmf
        · exact no_created_of_nonabsent mf rest _ j2 m hj hne
        · exact no_created_of_mf mf rest _ j2 m hj hmf
      | succ i2 =>
        rw [List.getElem?_cons_succ] at hi
        exact ih _ i2 j2 n (by omega) hi hj

theorem dup_existed (mf : Str → Bool) :
    ∀ (names : List Str) (fs : FS) (i j : Nat) (n : Str), i < j →
      names[i]? = some n → names[j]? = some n →
      (outcomesOf mf fs names)[i]? = some BOutcome.created →
      (outcomesOf mf fs names)[j]? = some BOutcome.existed := by
  intro names
  induction names with
  | nil => intro fs i j n _ h; simp at h
  | cons m rest ih =>
    intro fs i j n hij hi hj hc
    cases j with
    | zero => omega
    | succ j2 =>
      rw [List.getElem?_cons_succ] at hj
      simp only [outcomesOf, runBuilder, List.getElem?_cons_succ]
      cases i with
      | zero =>
        rw [List.getElem?_cons_zero, Option.some_inj] at hi
        subst hi
        simp only [outcomesOf, runBuilder, List.getElem?_cons_zero,
          Option.some_inj] at hc
        rcases (mkStep_fst_created mf fs m).mp hc with ⟨habs, hmf⟩
        refine outcome_of_dir mf rest _ j2 m hj ?_
        unfold mkStep
        rw [habs]
        simp [hmf]
      | succ i2 =>
        rw [List.getElem?_cons_succ] at hi
        simp only [outcomesOf, runBuilder, List.getElem?_cons_succ] at hc
        exact ih _ i2 j2 n (by omega) hi hj hc

/-- Claim C5: the Folder Registry Builder is idempotent — running it a
second time on the same roster against the filesystem state left by
the first run yields zero `created` outcomes, and every row that was
`created` in the first run is classified `already existed` in the
second; likewise, within a single run, for any two rows carrying the
same folder name the later one never reports `created`, and reports
`already existed` whenever the earlier one reported `created`.
(OS-level `mkdir` failures are modelled by a per-name oracle `mf`, so
a name that fails to be created fails deterministically.) -/
theorem claim_C5_idempotence (mf : Str → Bool) (fs : FS)
    (rows : List (Option Str)) :
    let names := (entriesOf rows).map BEntry.folder_name
    let os1 := outcomesOf mf fs names
    let fs1 := (runBuilder mf fs names).2
    let os2 := outcomesOf mf fs1 names
    (∀ i : Nat, os2[i]? ≠ some BOutcome.created)
    ∧ (∀ i : Nat, os1[i]? = some BOutcome.created → os2[i]? = some BOutcome.existed)
    ∧ (∀ (i j : Nat) (n : Str), i < j → names[i]? = some n → names[j]? = some n →
        os1[j]? ≠ some BOutcome.created
        ∧ (os1[i]? = some BOutcome.created → os1[j]? = some BOutcome.existed)) := by
  intro names os1 fs1 os2
  refine ⟨?_, ?_, ?_⟩
  · intro i
    apply no_created_of_inv
    intro n hn habs
    exact runBuilder_mem_absent mf names fs n hn habs
  · intro i h1
    rcases created_final_dir mf names fs i h1 with ⟨n, hget, hdir⟩
    exact outcome_of_dir mf names fs1 i n hget hdir
  · intro i j n hij hi hj
    exact ⟨dup_not_created mf names fs i j n hij hi hj,
      fun hc => dup_existed mf names fs i j n hij hi hj hc⟩

/-- Claim C5, witness: on the roster `demoRows` (header plus two rows
with the same folder name) the duplicate row of run 1 reports
`already existed`, and in run 2 the row that was `created` in run 1
also reports `already existed`. -/
theorem claim_C5_idempotence_witness :
    (outcomesOf (fun _ => false)
        (runBuilder (fun _ => false) (fun _ => PathKind.absent)
          ((entriesOf demoRows).map BEntry.folder_name)).2
        ((entriesOf demoRows).map BEntry.folder_name))[0]?
      = some BOutcome.existed
    ∧ (outcomesOf (fun _ => false) (fun _ => PathKind.absent)
        ((entriesOf demoRows).map BEntry.folder_name))[1]?
      = some BOutcome.existed := by
  have h := claim_C5_idempotence (fun _ => false) (fun _ => PathKind.absent) demoRows
  exact ⟨h.2.1 0 (by decide),
    (h.2.2 0 1 (str "A_B_1_N") (by decide) (by decide) (by decide)).2 (by decide)⟩

/-! ## Claims about the Folder Matcher (C6, C9) -/

theorem find?_of_take_all_not {α : Type} {p : α → Bool} :
    ∀ (l : List α) (i : Nat) (x : α), l[i]? = some x → p x = true →
      (l.take i).all (fun g => ! p g) = true → l.find? p = some x := by
  intro l
  induction l with
  | nil => intro i x h; simp at h
  | cons a t ih =>
    intro i x hget hp hall
    cases i with
    | zero =>
      rw [List.getElem?_cons_zero, Option.some_inj] at hget
      subst hget
      rw [List.find?_cons_of_pos _ hp]
    | succ i2 =>
      rw [List.getElem?_cons_succ] at hget
      rw [List.take_succ_cons, List.all_cons, Bool.and_eq_true, Bool.not_eq_true'] at hall
      rw [List.find?_cons_of_neg _ (by simp [hall.1])]
      exact ih i2 x hget hp hall.2

/-- Claim C6: whenever the candidate at position `i` satisfies the
tier-1 exact-match test (splits into at least 4 underscore-separated
segments whose segments from index 3 on, joined with a space, equal
the extracted name case-insensitively) and no earlier candidate does,
`find_best_match` returns exactly that candidate with score 100 —
regardless of whether the lower-priority substring or partial-word
rules would also match (they are never consulted). -/
theorem claim_C6_exact_match_priority (se : Str) (folders : List Str)
    (i : Nat) (f : Str) (hget : folders[i]? = some f)
    (hex : exactP (lowerL se) f = true)
    (hfirst : (folders.take i).all (fun g => ! exactP (lowerL se) g) = true) :
    find_best_match se folders = (some f, 100) := by
  have hf : folders.find? (fun folder => exactP (lowerL se) folder) = some f :=
    find?_of_take_all_not folders i f hget hex hfirst
  simp [find_best_match, hf]

/-- Claim C6, witness: with extracted name `"Uy Naro"`, the first
candidate matches the tier-2 substring rule (shown by the second
conjunct) but not the exact rule; the second candidate matches the
exact rule, so it is returned with score 100. -/
theorem claim_C6_exact_match_priority_witness :
    find_best_match (str "Uy Naro") [str "zz uy naro zz", str "A04_SE_813_Uy Naro"]
        = (some (str "A04_SE_813_Uy Naro"), 100)
    ∧ containsSub (lowerL (str "zz uy naro zz")) (lowerL (str "Uy Naro")) = true :=
  ⟨claim_C6_exact_match_priority (str "Uy Naro")
      [str "zz uy naro zz", str "A04_SE_813_Uy Naro"] 1 (str "A04_SE_813_Uy Naro")
      (by decide) (by decide) (by decide),
    by decide⟩

theorem containsSub_nil_pat : ∀ t : Str, containsSub t [] = true := by
  intro t
  cases t <;> simp [containsSub, List.isPrefixOf]

/-- Claim C9: on a non-empty candidate list, `find_best_match` applied
to the empty extracted name never returns `(none, 0)`: the empty
string is a substring of every candidate, so the tier-2 substring rule
fires on the first candidate unless the tier-1 exact rule fired
earlier, and some folder is always returned with score at least 80. -/
theorem claim_C9_empty_name (folders : List Str) (h : folders ≠ []) :
    ∃ f s, find_best_match [] folders = (some f, s) ∧ 80 ≤ s := by
  cases folders with
  | nil => exact absurd rfl h
  | cons g t =>
    have h2 : (g :: t).find? (fun folder => containsSub (lowerL folder) (lowerL []))
        = some g := by
      rw [List.find?_cons_of_pos]
      simp [lowerL, containsSub_nil_pat]
    cases hfind : (g :: t).find? (fun folder => exactP (lowerL []) folder) with
    | some f => exact ⟨f, 100, by simp [find_best_match, hfind], by omega⟩
    | none => exact ⟨g, 80, by simp [find_best_match, hfind, h2], by omega⟩

/-- Claim C9, witness: a singleton candidate list (whose only entry
does not satisfy the exact rule) yields a tier-2 match with score
80. -/
theorem claim_C9_empty_name_witness :
    ([str "X"] ≠ ([] : List Str))
    ∧ ∃ f s, find_best_match [] [str "X"] = (some f, s) ∧ 80 ≤ s :=
  ⟨by decide, claim_C9_empty_name [str "X"] (by decide)⟩

/-! ## Claims about the Name Extractor (C7) -/

theorem takeWhile_append_all {α : Type} (p : α → Bool) :
    ∀ (l1 l2 : List α), (∀ a ∈ l1, p a = true) →
      List.takeWhile p (l1 ++ l2) = l1 ++ List.takeWhile p l2 := by
  intro l1
  induction l1 with
  | nil => intro l2 _; rfl
  | cons a t ih =>
    intro l2 h
    rw [List.cons_append, List.takeWhile_cons, h a (by simp),
      ih l2 (fun b hb => h b (by simp [hb]))]
    rfl

theorem pyStem_with_ext (P E : Str) (hP : P ≠ []) (hE : '.' ∉ E) (hne : E ≠ []) :
    pyStem (P ++ '.' :: E) = P := by
  have hrev : (P ++ '.' :: E).reverse = E.reverse ++ '.' :: P.reverse := by
    simp [List.reverse_append, List.reverse_cons, List.append_assoc]
  have hlenP : 0 < P.length := List.length_pos.mpr hP
  have hlenE : 0 < E.length := List.length_pos.mpr hne
  have htw0 : List.takeWhile (fun c => ¬ (c = '.')) ('.' :: List.reverse P) = [] := by
    simp [List.takeWhile_cons]
  simp only [pyStem]
  rw [hrev, takeWhile_append_all _ E.reverse ('.' :: P.reverse)
      (by
        intro a ha
        have hmem : a ∈ E := List.mem_reverse.mp ha
        simp only [decide_eq_true_eq]
        intro hdot
        exact hE (hdot ▸ hmem))]
  rw [htw0, List.append_nil]
  rw [if_neg (by
    simp only [List.length_reverse, List.length_append, List.length_cons]
    omega)]
  rw [if_neg (by
    simp only [List.length_reverse]
    omega)]
  rw [if_neg (by
    simp only [List.length_reverse, List.length_append, List.length_cons]
    omega)]
  have hcount : (P ++ '.' :: E).length - E.reverse.length - 1 = P.length := by
    simp only [List.length_reverse, List.length_append, List.length_cons]
    omega
  rw [hcount]
  exact List.take_left P ('.' :: E)

theorem splitOnce_of_not_mem_left (c : Char) :
    ∀ (X Y : Str), c ∉ X → splitOnce c (X ++ c :: Y) = some (X, Y) := by
  intro X
  induction X with
  | nil => intro Y _; simp [splitOnce]
  | cons a t ih =>
    intro Y hmem
    have ha : ¬ (a = c) := fun h => hmem (by simp [h])
    rw [List.cons_append]
    simp only [splitOnce, ha, if_false, if_neg ha,
      ih Y (fun h => hmem (List.mem_cons_of_mem a h))]
    rfl

theorem splitOnce_none_of_not_mem (c : Char) :
    ∀ l : Str, c ∉ l → splitOnce c l = none := by
  intro l
  induction l with
  | nil => intro _; rfl
  | cons a t ih =>
    intro hmem
    have ha : ¬ (a = c) := fun h => hmem (by simp [h])
    simp only [splitOnce, ha, if_neg ha,
      ih (fun h => hmem (List.mem_cons_of_mem a h))]
    rfl

theorem not_mem_pyStem {c : Char} {s : Str} (h : c ∉ s) : c ∉ pyStem s := by
  simp only [pyStem]
  split_ifs <;> first
    | exact h
    | exact fun hm => h (List.take_subset _ _ hm)

/-- Claim C7: the Name Extractor splits the filename stem (the name
without its final extension) on the first underscore and returns the
trimmed second segment when the split produced exactly two parts, and
the trimmed whole stem otherwise; it is a total function on strings.
In particular, for filenames of the form `X_YZ.ext` (no underscore in
`X`, a real extension, `YZ` already trimmed) it returns `YZ`, and for
filenames containing no underscore it returns the trimmed stem
unchanged. -/
theorem claim_C7_name_extractor :
    (∀ X YZ E : Str, '_' ∉ X → '.' ∉ E → E ≠ [] → stripWs YZ = YZ →
        extract_name_from_filename (X ++ '_' :: (YZ ++ '.' :: E)) = YZ)
    ∧ (∀ s : Str, '_' ∉ s →
        extract_name_from_filename s = stripWs (pyStem s)) := by
  constructor
  · intro X YZ E hX hE hne hYZ
    have hassoc : X ++ '_' :: (YZ ++ '.' :: E) = (X ++ '_' :: YZ) ++ '.' :: E := by
      rw [← List.cons_append, List.append_assoc]
    have hstem : pyStem ((X ++ '_' :: YZ) ++ '.' :: E) = X ++ '_' :: YZ :=
      pyStem_with_ext _ _ (by simp) hE hne
    simp only [extract_name_from_filename]
    rw [hassoc, hstem, splitOnce_of_not_mem_left '_' X YZ hX]
    exact hYZ
  · intro s h
    simp only [extract_name_from_filename]
    rw [splitOnce_none_of_not_mem '_' (pyStem s) (not_mem_pyStem h)]

/-- Claim C7, witness: `"A04_Uy Naro.xlsx"` (written as the
concatenation the theorem quantifies over) yields `"Uy Naro"`, and
the underscore-free `"report.xlsx"` yields its trimmed stem. -/
theorem claim_C7_name_extractor_witness :
    extract_name_from_filename (str "A04" ++ '_' :: (str "Uy Naro" ++ '.' :: str "xlsx"))
        = str "Uy Naro"
    ∧ extract_name_from_filename (str "report.xlsx")
        = stripWs (pyStem (str "report.xlsx")) :=
  ⟨claim_C7_name_extractor.1 (str "A04") (str "Uy Naro") (str "xlsx")
      (by decide) (by decide) (by decide) (by decide),
    claim_C7_name_extractor.2 (str "report.xlsx") (by decide)⟩

/-! ## Claims about the Delivery Reporter (C8) -/

theorem sendAll_counts (oracle : Str → Str → Nat → Att) (cid : Str) :
    ∀ (fl : List FileEntry) (ts tf : Nat),
      (sendAll oracle cid fl ts tf).2.2.1
          = ts + (sendAll oracle cid fl ts tf).1.length
      ∧ (sendAll oracle cid fl ts tf).2.2.2
          = tf + (sendAll oracle cid fl ts tf).2.1.length := by
  intro fl
  induction fl with
  | nil => intro ts tf; simp [sendAll]
  | cons f rest ih =>
    intro ts tf
    by_cases hs : (send_file (oracle cid f.name)).success = true
    · rcases ih (ts + 1) tf with ⟨h1, h2⟩
      constructor <;> simp only [sendAll, hs, if_true, List.length_cons] <;> omega
    · rcases ih ts (tf + 1) with ⟨h1, h2⟩
      constructor <;>
        simp only [sendAll, hs, Bool.false_eq_true, if_false, List.length_cons] <;>
        omega

theorem runSender_counts (oracle : Str → Str → Nat → Att) :
    ∀ (folders : List SEFolder) (ts tf : Nat),
      (runSender oracle folders ts tf).2.1
          = ts + ((runSender oracle folders ts tf).1.map (fun r => r.sent.length)).sum
      ∧ (runSender oracle folders ts tf).2.2
          = tf + ((runSender oracle folders ts tf).1.map (fun r => r.failed.length)).sum := by
  intro folders
  induction folders with
  | nil => intro ts tf; simp [runSender]
  | cons fd rest ih =>
    intro ts tf
    rcases sendAll_counts oracle fd.chat_id (fd.files.filter dispatchFilter) ts tf
      with ⟨h1, h2⟩
    rcases ih (sendAll oracle fd.chat_id (fd.files.filter dispatchFilter) ts tf).2.2.1
      (sendAll oracle fd.chat_id (fd.files.filter dispatchFilter) ts tf).2.2.2
      with ⟨h3, h4⟩
    constructor <;>
      simp only [runSender, List.map_cons, List.sum_cons] <;>
      omega

theorem countP_bullet_sent : ∀ l : List Str,
    List.countP (isBullet ∘ RLine.sentBullet) l = l.length := by
  intro l
  induction l with
  | nil => rfl
  | cons a t ih => simp [List.countP_cons, Function.comp, isBullet, ih]

theorem countP_bullet_failed : ∀ l : List (Str × Option Str),
    List.countP (isBullet ∘ fun p => RLine.failedBullet p.1 p.2) l = l.length := by
  intro l
  induction l with
  | nil => rfl
  | cons a t ih => simp [List.countP_cons, Function.comp, isBullet, ih]

theorem countP_renderRecipient (r : DOutcome) :
    (renderRecipient r).countP isBullet = r.sent.length + r.failed.length := by
  unfold renderRecipient
  by_cases hs : r.sent.isEmpty <;> by_cases hf : r.failed.isEmpty <;>
    rw [List.isEmpty_iff] at hs hf <;>
    simp [hs, hf, List.countP_append, List.countP_cons, isBullet,
      countP_bullet_sent, countP_bullet_failed]

theorem countP_bullet_blocks : ∀ rs : List DOutcome,
    ((rs.map renderRecipient).flatten).countP isBullet
      = (rs.map (fun r => r.sent.length + r.failed.length)).sum := by
  intro rs
  induction rs with
  | nil => rfl
  | cons r rest ih =>
    simp only [List.map_cons, List.flatten_cons, List.countP_append, ih,
      List.sum_cons, countP_renderRecipient]

theorem sum_map_add {α : Type} (f g : α → Nat) :
    ∀ l : List α, (l.map (fun x => f x + g x)).sum
      = (l.map f).sum + (l.map g).sum := by
  intro l
  induction l with
  | nil => rfl
  | cons a t ih => simp [ih]; omega

/-- Claim C8: for every ordered sequence of per-recipient delivery
outcomes (including zero recipients and zero files), the running
`total_sent` / `total_failed` counters that the rendered report's
summary displays equal the sums of the lengths of the per-recipient
sent and failed lists (so sent + failed equals the total number of
files attempted); the rendered report contains the summary line with
exactly those counters, and it neither filters nor duplicates the
outcome lists — it contains exactly one file bullet line per recorded
sent or failed file. -/
theorem claim_C8_reporter_totals (oracle : Str → Str → Nat → Att)
    (folders : List SEFolder) (stamp : Str) :
    let q := runSender oracle folders 0 0
    q.2.1 = (q.1.map (fun r => r.sent.length)).sum
    ∧ q.2.2 = (q.1.map (fun r => r.failed.length)).sum
    ∧ RLine.summary q.2.1 q.2.2 ∈ renderReport stamp folders.length q.1 q.2.1 q.2.2
    ∧ (renderReport stamp folders.length q.1 q.2.1 q.2.2).countP isBullet
        = q.2.1 + q.2.2 := by
  intro q
  have hq : q = runSender oracle folders 0 0 := rfl
  rw [hq]
  rcases runSender_counts oracle folders 0 0 with ⟨h1, h2⟩
  simp only [Nat.zero_add] at h1 h2
  refine ⟨h1, h2, ?_, ?_⟩
  · unfold renderReport
    simp
  · unfold renderReport
    rw [List.countP_append, List.countP_append, countP_bullet_blocks,
      sum_map_add (fun r => r.sent.length) (fun r => r.failed.length)
        (runSender oracle folders 0 0).1]
    simp [List.countP_cons, isBullet]
    omega
